import Mathlib

/-!
Shallow embedding of the address-converter conversion engine
(`src/domain/address.rs`, `src/domain/french_address.rs`,
`src/domain/iso20022_address.rs`, `src/domain/address_conversion.rs`).

Text is modelled as `List Char`.  The Rust parser uses the `regex` crate
with four anchored patterns; each regex is translated into an explicit
executable function whose branch structure follows the leftmost-first
(greedy, Perl-preference) capture semantics of that crate.  Character
classes are modelled at ASCII fidelity (`\d` as ASCII digits, `\s` as the
six ASCII whitespace characters, `[A-Z]` and `[a-zA-Z]` literally); the
source strings exercised by the program are ASCII-range for these classes.

`Uuid::new_v4()` and `Utc::now()` draw fresh values on every call of
`Address::new`; they are modelled by an explicit `Gen` record supplied by
the environment to `from_french` / `from_iso20022`.
-/

namespace AddressConverter

abbrev Str := List Char

/-- Whitespace class of the `regex` crate restricted to ASCII
(space, tab, newline, carriage return, vertical tab, form feed). -/
def isWs (c : Char) : Bool :=
  c = ' ' || c = '\t' || c = '\n' || c = '\r' || c = Char.ofNat 11 || c = Char.ofNat 12

/-- Uppercase ASCII letter, the literal class `[A-Z]`. -/
def isUpperAZ (c : Char) : Bool := 'A' ≤ c && c ≤ 'Z'

/-- ASCII letter, the literal class `[a-zA-Z]`. -/
def isAlphaAZ (c : Char) : Bool := ('A' ≤ c && c ≤ 'Z') || ('a' ≤ c && c ≤ 'z')

/-- Error type `AddressConversionError` from `address_conversion.rs`. -/
inductive AddressConversionError where
  | missingField (field : Str)
  | invalidFormat (msg : Str)
  deriving DecidableEq, Repr

/-- Country enum from `address.rs`; the registry currently holds only France. -/
inductive Country where
  | france
  deriving DecidableEq, Repr

/-- Lowercase an ASCII character, used by the case-insensitive registry match. -/
def asciiLower (c : Char) : Char :=
  if 'A' ≤ c && c ≤ 'Z' then Char.ofNat (c.toNat + 32) else c

/-- Country registry lookup: strum `from_str` with `ascii_case_insensitive`,
accepting the serializations `FRANCE` and `FR`. -/
def Country.from_str (s : Str) : Option Country :=
  let l := s.map asciiLower
  if l = "france".data || l = "fr".data then some Country.france else none

/-- Display serialization of a country (strum `serialize_all = UPPERCASE`). -/
def Country.toStr : Country → Str
  | .france => "FRANCE".data

/-- Country to fixed two-letter ISO code (`Country::iso_code`). -/
def Country.iso_code : Country → Str
  | .france => "FR".data

/-- Display of strum ParseError VariantNotFound, the message wrapped into
InvalidFormat by `from_french` / `from_iso20022` on unknown country text. -/
def variantNotFoundMsg : Str := "Matching variant not found".data

inductive AddressKind where
  | individual
  | business
  deriving DecidableEq, Repr

inductive Recipient where
  | individual (name : Str)
  | business (company_name : Str) (contact : Option Str)
  deriving DecidableEq, Repr

/-- Recipient denomination (`Recipient::denomination` in `address.rs`):
the contact line of a business, or the name of an individual. -/
def Recipient.denomination : Recipient → Option Str
  | .business _ contact => contact
  | .individual name => some name

structure DeliveryPoint where
  external : Option Str
  internal : Option Str
  postbox : Option Str
  deriving DecidableEq, Repr

structure Street where
  number : Option Str
  name : Str
  deriving DecidableEq, Repr

structure PostalDetails where
  postcode : Str
  town : Str
  town_location : Option Str
  deriving DecidableEq, Repr

/-- Fresh values drawn by `Address::new` (`Uuid::new_v4`, `Utc::now`). -/
structure Gen where
  id : Nat
  updatedAt : Nat
  deriving DecidableEq, Repr

/-- Canonical address entity from `address.rs`. -/
structure Address where
  id : Nat
  updated_at : Nat
  kind : AddressKind
  recipient : Recipient
  delivery_point : Option DeliveryPoint
  street : Option Street
  postal_details : PostalDetails
  country : Country
  deriving DecidableEq, Repr

/-- Constructor `Address::new`: fields as given, id and timestamp freshly
generated (here: supplied through `Gen`). -/
def Address.new (g : Gen) (kind : AddressKind) (recipient : Recipient)
    (delivery_point : Option DeliveryPoint) (street : Option Street)
    (postal_details : PostalDetails) (country : Country) : Address :=
  { id := g.id, updated_at := g.updatedAt, kind, recipient,
    delivery_point, street, postal_details, country }

structure IndividualFrenchAddress where
  name : Str
  internal_delivery : Option Str
  external_delivery : Option Str
  street : Option Str
  distribution_info : Option Str
  postal : Str
  country : Str
  deriving DecidableEq, Repr

structure BusinessFrenchAddress where
  business_name : Str
  recipient : Option Str
  external_delivery : Option Str
  street : Str
  distribution_info : Option Str
  postal : Str
  country : Str
  deriving DecidableEq, Repr

inductive FrenchAddress where
  | individual (a : IndividualFrenchAddress)
  | business (a : BusinessFrenchAddress)
  deriving DecidableEq, Repr

/-- Distribution-info line of either French DTO variant. -/
def FrenchAddress.distribution_info : FrenchAddress → Option Str
  | .individual i => i.distribution_info
  | .business b => b.distribution_info

/-- Postal line of either French DTO variant. -/
def FrenchAddress.postalLine : FrenchAddress → Str
  | .individual i => i.postal
  | .business b => b.postal

structure IsoPostalAddress where
  street_name : Option Str
  building_number : Option Str
  floor : Option Str
  room : Option Str
  postbox : Option Str
  department : Option Str
  postcode : Str
  town_name : Str
  town_location_name : Option Str
  country : Str
  deriving DecidableEq, Repr

inductive IsoAddress where
  | individual (name : Str) (postal_address : IsoPostalAddress)
  | business (company_name : Str) (postal_address : IsoPostalAddress)
  deriving DecidableEq, Repr

/-- Department element of either ISO DTO variant. -/
def IsoAddress.departmentField : IsoAddress → Option Str
  | .individual _ pa => pa.department
  | .business _ pa => pa.department

/-! ### French line parser (`french_address.rs`) -/

/-- Guidance message of `parse_postal` (the Rust literal contains two
single quotes, built here from the code point 39). -/
def POSTAL_ERROR : Str :=
  "Postal information should contain a postcode/zipcode and a town (e.g., ".data
    ++ Char.ofNat 39 :: "44000 NANTES".data ++ [Char.ofNat 39, ')']

/-- Capture of STREET_REGEX `^(?:(\d+[a-zA-Z]*) )?(.+)$`: the optional group
matches a maximal digit run, a letter run and one literal space; if that
path cannot complete (including failure of the trailing `(.+)$`), the
engine retries with the group skipped, so `(.+)$` must then consume the
whole line (nonempty, newline-free, since `.` excludes newline). -/
def streetCaptures (s : Str) : Option (Option Str × Str) :=
  let fallback : Option (Option Str × Str) :=
    if s ≠ [] ∧ s.all (· ≠ '\n') = true then some (none, s) else none
  let d := s.takeWhile Char.isDigit
  let rest1 := s.dropWhile Char.isDigit
  let l := rest1.takeWhile isAlphaAZ
  let rest2 := rest1.dropWhile isAlphaAZ
  match rest2 with
  | c :: r =>
    if d ≠ [] ∧ c = ' ' ∧ r ≠ [] ∧ r.all (· ≠ '\n') = true then some (some (d ++ l), r)
    else fallback
  | [] => fallback

/-- Translation of `FrenchAddressParser::parse_street`. -/
def parse_street (street : Str) : Except AddressConversionError Street :=
  if street = [] then
    .error (.invalidFormat "Street cannot be empty".data)
  else
    match streetCaptures street with
    | some (number, name) =>
      if name = [] then .error (.invalidFormat "Street name cannot be empty".data)
      else .ok { number, name }
    | none => .error (.invalidFormat "Invalid street format".data)

/-- Translation of `FrenchAddressParser::parse_postal`, POSTAL_REGEX
`^(\d{5})\s+(.+)$`: five ASCII digits, then a greedy whitespace run, then
a nonempty newline-free remainder.  When the suffix after the maximal
whitespace run is empty, the greedy `\s+` backtracks by exactly one
character, leaving the final whitespace character as the town capture
(possible only when the run has length at least two and that character is
not a newline, since `.` excludes newline). -/
def parse_postal (postal : Str) : Except AddressConversionError PostalDetails :=
  let d := postal.take 5
  let rest := postal.drop 5
  let w := rest.takeWhile isWs
  let t := rest.dropWhile isWs
  if d.length = 5 ∧ d.all Char.isDigit = true then
    if w = [] then .error (.invalidFormat POSTAL_ERROR)
    else if t ≠ [] ∧ t.all (· ≠ '\n') = true then
      .ok { postcode := d, town := t, town_location := none }
    else if t = [] ∧ 2 ≤ w.length ∧ w.getLastD ' ' ≠ '\n' then
      .ok { postcode := d, town := [w.getLastD ' '], town_location := none }
    else .error (.invalidFormat POSTAL_ERROR)
  else .error (.invalidFormat POSTAL_ERROR)

/-- Whole match of POSTBOX_REGEX `^[A-Z]{2}\s+\d+` (anchored only at the
start): two uppercase letters, the maximal whitespace run, then the
maximal nonempty digit run. -/
def postboxMatch (s : Str) : Option Str :=
  match s with
  | c1 :: c2 :: rest =>
    let w := rest.takeWhile isWs
    let r2 := rest.dropWhile isWs
    let dg := r2.takeWhile Char.isDigit
    if isUpperAZ c1 = true ∧ isUpperAZ c2 = true ∧ w ≠ [] ∧ dg ≠ [] then
      some (c1 :: c2 :: (w ++ dg))
    else none
  | _ => none

/-- Translation of `FrenchAddressParser::parse_postbox`. -/
def parse_postbox (distribution_info : Str) : Except AddressConversionError (Option Str) :=
  if distribution_info = [] then
    .error (.invalidFormat "Distribution info cannot be empty if provided".data)
  else .ok (postboxMatch distribution_info)

/-- Group-1 capture of TOWN_LOCATION_REGEX `^(?:[A-Z]{2}\s+\d+\s+)?(.+)$`.
The optional prefix needs two uppercase letters, a whitespace run, a digit
run and a further whitespace run; the trailing `(.+)$` then takes the
nonempty newline-free remainder (with the same one-character backtrack of
the final `\s+` as in `parse_postal`).  If any of that fails the engine
retries with the prefix skipped and `(.+)$` must consume the whole text. -/
def townLocCaptures (s : Str) : Option Str :=
  let fallback : Option Str := if s ≠ [] ∧ s.all (· ≠ '\n') = true then some s else none
  match s with
  | c1 :: c2 :: rest =>
    let w1 := rest.takeWhile isWs
    let r1 := rest.dropWhile isWs
    let dg := r1.takeWhile Char.isDigit
    let r2 := r1.dropWhile Char.isDigit
    let w2 := r2.takeWhile isWs
    let t := r2.dropWhile isWs
    if isUpperAZ c1 = true ∧ isUpperAZ c2 = true ∧ w1 ≠ [] ∧ dg ≠ [] then
      if w2 = [] then fallback
      else if t ≠ [] ∧ t.all (· ≠ '\n') = true then some t
      else if t = [] ∧ 2 ≤ w2.length ∧ w2.getLastD ' ' ≠ '\n' then
        some [w2.getLastD ' ']
      else fallback
    else fallback
  | _ => fallback

/-- Translation of `FrenchAddressParser::parse_town_location`. -/
def parse_town_location (distribution_info : Str) : Except AddressConversionError (Option Str) :=
  if distribution_info = [] then
    .error (.invalidFormat "Distribution info cannot be empty if provided".data)
  else .ok (townLocCaptures distribution_info)

/-! ### Conversion engine (`address_conversion.rs`) -/

/-- Closure `distribution_info` inside `to_french`: merge of the delivery
postbox and the postal town-location, computed only when a delivery point
exists (`map_or_else` over `self.delivery_point`). -/
def Address.distributionInfo (a : Address) : Option Str :=
  match a.delivery_point with
  | none => none
  | some dp =>
    match dp.postbox, a.postal_details.town_location with
    | none, none => none
    | none, some town_location => some town_location
    | some postbox, none => some postbox
    | some postbox, some town_location => some (postbox ++ ' ' :: town_location)

/-- Closure `postal_info` inside `to_french`: `"{postcode} {town}"`. -/
def Address.postalInfo (a : Address) : Str :=
  a.postal_details.postcode ++ ' ' :: a.postal_details.town

/-- Street rendering used by both `to_french` branches:
`"{number} {name}"` when a number exists, the bare name otherwise. -/
def renderStreet (st : Street) : Str :=
  match st.number with
  | some number => number ++ ' ' :: st.name
  | none => st.name

/-- Translation of `Address::to_french`. -/
def to_french (a : Address) : Except AddressConversionError FrenchAddress :=
  match a.kind with
  | .individual =>
    match a.recipient.denomination with
    | some name =>
      if name = [] then .error (.missingField "name".data)
      else
        .ok (.individual
          { name := name
            internal_delivery := a.delivery_point.bind (fun dp => dp.internal)
            external_delivery := a.delivery_point.bind (fun dp => dp.external)
            street := a.street.map renderStreet
            distribution_info := a.distributionInfo
            postal := a.postalInfo
            country := a.country.toStr })
    | none => .error (.missingField "name".data)
  | .business =>
    match a.recipient with
    | .business company_name _ =>
      if company_name = [] then .error (.missingField "company_name".data)
      else
        match a.street with
        | some st =>
          .ok (.business
            { business_name := company_name
              recipient := a.recipient.denomination
              external_delivery := a.delivery_point.bind (fun dp => dp.external)
              street := renderStreet st
              distribution_info := a.distributionInfo
              postal := a.postalInfo
              country := a.country.toStr })
        | none =>
          .error (.missingField
            "Street information is required for french business addresses".data)
    | .individual _ => .error (.missingField "company_name".data)

/-- Translation of `Address::to_iso20022`. -/
def to_iso20022 (a : Address) : Except AddressConversionError IsoAddress :=
  let iso_address : IsoPostalAddress :=
    { street_name := a.street.map (fun st => st.name)
      building_number := a.street.bind (fun st => st.number)
      floor := a.delivery_point.bind (fun dp => dp.external)
      room := a.delivery_point.bind (fun dp => dp.internal)
      postbox := a.delivery_point.bind (fun dp => dp.postbox)
      department := none
      postcode := a.postal_details.postcode
      town_name := a.postal_details.town
      town_location_name := a.postal_details.town_location
      country := a.country.iso_code }
  match a.kind with
  | .individual =>
    match a.recipient with
    | .individual name =>
      if name = [] then .error (.missingField "name".data)
      else .ok (.individual name iso_address)
    | .business _ _ => .error (.missingField "name".data)
  | .business =>
    match a.recipient with
    | .business company_name _ =>
      if company_name = [] then .error (.missingField "company_name".data)
      else
        .ok (.business company_name { iso_address with department := a.recipient.denomination })
    | .individual _ => .error (.missingField "company_name".data)

/-- Delivery-point assembly in the Individual branch of `from_french`:
`Some` only when at least one of the three components is present. -/
def mkDeliveryPoint (e it d : Option Str) : Option DeliveryPoint :=
  match e, it, d with
  | none, none, none => none
  | e, it, d => some { external := e, internal := it, postbox := d }

/-- Translation of `Address::from_french`; `g` supplies the fresh id and
timestamp drawn by `Address::new`. -/
def from_french (g : Gen) (fa : FrenchAddress) : Except AddressConversionError Address :=
  match fa with
  | .individual i => do
    let street ← match i.street with
      | some s => Except.map some (parse_street s)
      | none => Except.ok none
    let postal ← parse_postal i.postal
    let delivery_point :=
      mkDeliveryPoint i.external_delivery i.internal_delivery i.distribution_info
    let country ← match Country.from_str i.country with
      | some c => Except.ok c
      | none => Except.error (.invalidFormat variantNotFoundMsg)
    Except.ok (Address.new g .individual (.individual i.name) delivery_point street postal country)
  | .business b => do
    let st ← parse_street b.street
    let postal ← parse_postal b.postal
    let postbox ← match b.distribution_info with
      | some info => parse_postbox info
      | none => Except.ok none
    let town_location ← match b.distribution_info with
      | some info => parse_town_location info
      | none => Except.ok none
    Except.ok (Address.new g .business (.business b.business_name b.recipient)
      (some { external := b.external_delivery, internal := none, postbox := postbox })
      (some st) { postal with town_location := town_location } Country.france)

/-- Translation of `Address::from_iso20022`. -/
def from_iso20022 (g : Gen) (iso : IsoAddress) : Except AddressConversionError Address :=
  match iso with
  | .individual name pa => do
    let street_name ← match pa.street_name with
      | some n => if n = [] then Except.error (.missingField "street_name".data) else Except.ok n
      | none => Except.error (.missingField "street_name".data)
    let country ← match Country.from_str pa.country with
      | some c => Except.ok c
      | none => Except.error (.invalidFormat variantNotFoundMsg)
    Except.ok (Address.new g .individual (.individual name)
      (some { external := pa.floor, internal := pa.room, postbox := pa.postbox })
      (some { number := pa.building_number, name := street_name })
      { postcode := pa.postcode, town := pa.town_name, town_location := pa.town_location_name }
      country)
  | .business company_name pa => do
    let country ← match Country.from_str pa.country with
      | some c => Except.ok c
      | none => Except.error (.invalidFormat variantNotFoundMsg)
    Except.ok (Address.new g .business (.business company_name pa.department)
      (some { external := pa.floor, internal := none, postbox := pa.postbox })
      (some { number := pa.building_number, name := pa.street_name.getD [] })
      { postcode := pa.postcode, town := pa.town_name, town_location := pa.town_location_name }
      country)

/-! ### Derived notions used in the claim statements -/

/-- Primary name of a recipient: the individual name, or the company name. -/
def Recipient.primaryName : Recipient → Str
  | .individual name => name
  | .business company_name _ => company_name

/-- Data-model invariant from the spec: the address kind matches the
variant of the recipient. -/
def Address.recipientConsistent (a : Address) : Prop :=
  match a.kind, a.recipient with
  | .individual, .individual _ => True
  | .business, .business _ _ => True
  | _, _ => False

/-- Data-model invariant from the spec: when the street is present, its
name component is nonempty. -/
def Address.streetNameOk (a : Address) : Prop :=
  ∀ st, a.street = some st → st.name ≠ []

/-- Content of an address apart from the generated id and timestamp. -/
def Address.content (a : Address) :
    AddressKind × Recipient × Option DeliveryPoint × Option Street × PostalDetails × Country :=
  (a.kind, a.recipient, a.delivery_point, a.street, a.postal_details, a.country)

/-- Agreement of two conversion results modulo the freshly generated id
and timestamp: identical errors, or addresses with identical content. -/
def agreeModGen :
    Except AddressConversionError Address → Except AddressConversionError Address → Prop
  | .ok a, .ok b => a.content = b.content
  | .error e, .error f => e = f
  | _, _ => False

/-! ### Concrete inputs used by the claim analyses -/

/-- C1 input: delivery point absent while the town location is present. -/
def exC1 : Address :=
  { id := 0, updated_at := 0, kind := .individual,
    recipient := .individual "A".data, delivery_point := none, street := none,
    postal_details := { postcode := "33380".data, town := "MIOS".data,
                        town_location := some "CAUDOS".data },
    country := .france }

/-- French DTO produced by `to_french` on `exC1`. -/
def faC1 : FrenchAddress :=
  .individual
    { name := "A".data, internal_delivery := none, external_delivery := none,
      street := none, distribution_info := none,
      postal := "33380 MIOS".data, country := "FRANCE".data }

/-- C2 counterexample input: postcode that is not a five-digit code. -/
def exC2 : Address :=
  { id := 0, updated_at := 0, kind := .individual,
    recipient := .individual "A".data, delivery_point := none, street := none,
    postal_details := { postcode := "X".data, town := "Y".data, town_location := none },
    country := .france }

/-- French DTO produced by `to_french` on `exC2`. -/
def faC2 : FrenchAddress :=
  .individual
    { name := "A".data, internal_delivery := none, external_delivery := none,
      street := none, distribution_info := none,
      postal := "X Y".data, country := "FRANCE".data }

/-- C2 witness input: well-formed postcode and town. -/
def exC2w : Address :=
  { id := 0, updated_at := 0, kind := .individual,
    recipient := .individual "A".data, delivery_point := none, street := none,
    postal_details := { postcode := "33380".data, town := "MIOS".data, town_location := none },
    country := .france }

/-- French DTO produced by `to_french` on `exC2w`. -/
def faC2w : FrenchAddress :=
  .individual
    { name := "A".data, internal_delivery := none, external_delivery := none,
      street := none, distribution_info := none,
      postal := "33380 MIOS".data, country := "FRANCE".data }

/-- C3 counterexample input: business DTO whose country text names no
registry member. -/
def faC3 : BusinessFrenchAddress :=
  { business_name := "B".data, recipient := none, external_delivery := none,
    street := "1 RUE".data, distribution_info := none,
    postal := "34092 MONTPELLIER".data, country := "NOWHERE".data }

/-- Canonical address produced by `from_french` on `faC3`. -/
def aC3 : Address :=
  { id := 0, updated_at := 0, kind := .business,
    recipient := .business "B".data none,
    delivery_point := some { external := none, internal := none, postbox := none },
    street := some { number := some "1".data, name := "RUE".data },
    postal_details := { postcode := "34092".data, town := "MONTPELLIER".data,
                        town_location := none },
    country := .france }

/-- C3 witness input: individual DTO with unknown country text. -/
def iC3w : IndividualFrenchAddress :=
  { name := "A".data, internal_delivery := none, external_delivery := none,
    street := none, distribution_info := none,
    postal := "33380 MIOS".data, country := "MARS".data }

/-- C5 counterexample input: business ISO DTO without a street name. -/
def isoC5 : IsoAddress :=
  .business "ACME".data
    { street_name := none, building_number := none, floor := none, room := none,
      postbox := none, department := none, postcode := "34092".data,
      town_name := "MONTPELLIER".data, town_location_name := none, country := "FR".data }

/-- Canonical address produced by `from_iso20022` on `isoC5`. -/
def aC5 : Address :=
  { id := 0, updated_at := 0, kind := .business,
    recipient := .business "ACME".data none,
    delivery_point := some { external := none, internal := none, postbox := none },
    street := some { number := none, name := [] },
    postal_details := { postcode := "34092".data, town := "MONTPELLIER".data,
                        town_location := none },
    country := .france }


/-- C6 witness input: business address without a street. -/
def exC6a : Address :=
  { id := 0, updated_at := 0, kind := .business,
    recipient := .business "ACME".data none, delivery_point := none, street := none,
    postal_details := { postcode := "33380".data, town := "MIOS".data, town_location := none },
    country := .france }

/-- C6 witness input: business address with company name and street. -/
def exC6b : Address :=
  { id := 0, updated_at := 0, kind := .business,
    recipient := .business "ACME".data none, delivery_point := none,
    street := some { number := none, name := "RUE".data },
    postal_details := { postcode := "33380".data, town := "MIOS".data, town_location := none },
    country := .france }

/-- C8 witness input: business with a company name but no contact. -/
def exC8 : Address :=
  { id := 0, updated_at := 0, kind := .business,
    recipient := .business "ACME".data none, delivery_point := none,
    street := some { number := none, name := "RUE".data },
    postal_details := { postcode := "33380".data, town := "MIOS".data, town_location := none },
    country := .france }

/-- C8 witness input: individual address. -/
def exC8i : Address :=
  { id := 0, updated_at := 0, kind := .individual,
    recipient := .individual "A".data, delivery_point := none, street := none,
    postal_details := { postcode := "33380".data, town := "MIOS".data, town_location := none },
    country := .france }

/-- C9 input: a fixed individual French DTO. -/
def faC9 : FrenchAddress :=
  .individual
    { name := "A".data, internal_delivery := none, external_delivery := none,
      street := none, distribution_info := none,
      postal := "33380 MIOS".data, country := "FRANCE".data }

/-- Result of `from_french` on `faC9` with generated values `(0, 0)`. -/
def aC9a : Address :=
  { id := 0, updated_at := 0, kind := .individual,
    recipient := .individual "A".data, delivery_point := none, street := none,
    postal_details := { postcode := "33380".data, town := "MIOS".data, town_location := none },
    country := .france }

/-- Result of `from_french` on `faC9` with generated values `(1, 1)`. -/
def aC9b : Address :=
  { id := 1, updated_at := 1, kind := .individual,
    recipient := .individual "A".data, delivery_point := none, street := none,
    postal_details := { postcode := "33380".data, town := "MIOS".data, town_location := none },
    country := .france }

/-- Decidable equality of conversion results, for concrete evaluation. -/
instance {ε α : Type} [DecidableEq ε] [DecidableEq α] : DecidableEq (Except ε α) :=
  fun x y =>
    match x, y with
    | .ok a, .ok b =>
      if h : a = b then .isTrue (by rw [h])
      else .isFalse (by intro hc; cases hc; exact h rfl)
    | .error e, .error f =>
      if h : e = f then .isTrue (by rw [h])
      else .isFalse (by intro hc; cases hc; exact h rfl)
    | .ok _, .error _ => .isFalse (by intro hc; cases hc)
    | .error _, .ok _ => .isFalse (by intro hc; cases hc)

/-- Fixed generated values used in concrete runs. -/
def gen0 : Gen := { id := 0, updatedAt := 0 }

/-- Second set of generated values, distinct from `gen0`. -/
def gen1 : Gen := { id := 1, updatedAt := 1 }

/-- ISO DTO produced by `to_iso20022` on `exC8`. -/
def isoC8 : IsoAddress :=
  .business "ACME".data
    { street_name := some "RUE".data, building_number := none, floor := none, room := none,
      postbox := none, department := none, postcode := "33380".data,
      town_name := "MIOS".data, town_location_name := none, country := "FR".data }

/-- Postal address element set of the C5 witness. -/
def paC5w : IsoPostalAddress :=
  { street_name := some "RUE".data, building_number := none, floor := none, room := none,
    postbox := none, department := none, postcode := "33380".data,
    town_name := "MIOS".data, town_location_name := none, country := "FR".data }

/-- Canonical address produced by `from_iso20022` on the C5 witness input. -/
def aC5w : Address :=
  { id := 0, updated_at := 0, kind := .individual,
    recipient := .individual "A".data,
    delivery_point := some { external := none, internal := none, postbox := none },
    street := some { number := none, name := "RUE".data },
    postal_details := { postcode := "33380".data, town := "MIOS".data,
                        town_location := none },
    country := .france }

/-- C7 witness input: individual DTO whose postal line is free text. -/
def faC7w : FrenchAddress :=
  .individual
    { name := "A".data, internal_delivery := none, external_delivery := none,
      street := none, distribution_info := none,
      postal := "MIOS".data, country := "FRANCE".data }

/-! ### Helper lemmas about the character classes and list scanning -/

@[simp] theorem exBind_ok {ε α β : Type} (a : α) (f : α → Except ε β) :
    (Except.ok a >>= f) = f a := rfl

@[simp] theorem exBind_error {ε α β : Type} (e : ε) (f : α → Except ε β) :
    ((Except.error e : Except ε α) >>= f) = .error e := rfl

@[simp] theorem exMap_ok {ε α β : Type} (f : α → β) (a : α) :
    Except.map f (.ok a : Except ε α) = .ok (f a) := rfl

@[simp] theorem exMap_error {ε α β : Type} (f : α → β) (e : ε) :
    Except.map f (.error e : Except ε α) = .error e := rfl

theorem isWs_iff {c : Char} : isWs c = true ↔
    c = ' ' ∨ c = '\t' ∨ c = '\n' ∨ c = '\r' ∨ c = Char.ofNat 11 ∨ c = Char.ofNat 12 := by
  simp [isWs]
  tauto

theorem digit_not_ws {c : Char} (h : c.isDigit = true) : isWs c = false := by
  by_contra hw
  rw [Bool.not_eq_false] at hw
  rcases isWs_iff.mp hw with h1 | h1 | h1 | h1 | h1 | h1 <;> subst h1 <;>
    exact absurd h (by decide)

theorem ws_not_digit {c : Char} (h : isWs c = true) : c.isDigit = false := by
  by_contra hd
  rw [Bool.not_eq_false] at hd
  simp [digit_not_ws hd] at h

theorem takeWhile_append_all {p : Char → Bool} {w : Str} (x : Str)
    (hw : ∀ c ∈ w, p c = true) :
    (w ++ x).takeWhile p = w ++ x.takeWhile p ∧ (w ++ x).dropWhile p = x.dropWhile p := by
  induction w with
  | nil => simp
  | cons c cs ih =>
    have hc : p c = true := hw c (by simp)
    have ihh := ih (fun d hd => hw d (by simp [hd]))
    constructor
    · simpa [List.takeWhile_cons_of_pos hc] using ihh.1
    · simpa [List.dropWhile_cons_of_pos hc] using ihh.2

theorem takeWhile_head_neg {p : Char → Bool} {x : Str}
    (hx : x = [] ∨ p (x.headD ' ') = false) :
    x.takeWhile p = [] ∧ x.dropWhile p = x := by
  cases x with
  | nil => simp
  | cons c cs =>
    rcases hx with h | h
    · cases h
    · simp only [List.headD_cons] at h
      exact ⟨List.takeWhile_cons_of_neg (by simp [h]),
             List.dropWhile_cons_of_neg (by simp [h])⟩

theorem all_of_subset {q : Char → Bool} {t u : Str} (hsub : u ⊆ t)
    (h : t.all q = true) : u.all q = true := by
  rw [List.all_eq_true] at *
  exact fun c hc => h c (hsub hc)

/-! ### Parser lemmas -/

theorem streetCaptures_name_ne {s : Str} {num : Option Str} {name : Str}
    (h : streetCaptures s = some (num, name)) : name ≠ [] := by
  simp only [streetCaptures] at h
  split at h
  · split at h
    · next hc =>
      simp only [Option.some.injEq, Prod.mk.injEq] at h
      exact h.2 ▸ hc.2.2.1
    · split at h
      · next hc =>
        simp only [Option.some.injEq, Prod.mk.injEq] at h
        exact h.2 ▸ hc.1
      · exact absurd h (by simp)
  · split at h
    · next hc =>
      simp only [Option.some.injEq, Prod.mk.injEq] at h
      exact h.2 ▸ hc.1
    · exact absurd h (by simp)

theorem streetCaptures_isSome {s : Str} (h1 : s ≠ []) (h2 : s.all (· ≠ '\n') = true) :
    ∃ p, streetCaptures s = some p := by
  simp only [streetCaptures]
  split
  · split
    · exact ⟨_, rfl⟩
    · exact ⟨_, by rw [if_pos ⟨h1, h2⟩]⟩
  · exact ⟨_, by rw [if_pos ⟨h1, h2⟩]⟩

theorem parse_street_total {s : Str} (h1 : s ≠ []) (h2 : s.all (· ≠ '\n') = true) :
    ∃ st, parse_street s = .ok st ∧ st.name ≠ [] := by
  obtain ⟨⟨num, name⟩, hp⟩ := streetCaptures_isSome h1 h2
  have hn := streetCaptures_name_ne hp
  exact ⟨⟨num, name⟩, by simp [parse_street, h1, hp, hn], hn⟩

theorem parse_street_ok_name {s : Str} {st : Street}
    (h : parse_street s = .ok st) : st.name ≠ [] := by
  simp only [parse_street] at h
  split at h
  · exact absurd h (by simp)
  · split at h
    · next num name hcap =>
      split at h
      · exact absurd h (by simp)
      · next hn =>
        simp only [Except.ok.injEq] at h
        subst h
        exact hn
    · exact absurd h (by simp)

theorem parse_street_error_shape {s : Str} {e : AddressConversionError}
    (h : parse_street s = .error e) :
    e = .invalidFormat "Street cannot be empty".data ∨
      e = .invalidFormat "Invalid street format".data := by
  simp only [parse_street] at h
  split at h
  · simp only [Except.error.injEq] at h
    exact Or.inl h.symm
  · split at h
    · next num name hcap =>
      split at h
      · next hn => exact absurd hn (streetCaptures_name_ne hcap)
      · exact absurd h (by simp)
    · simp only [Except.error.injEq] at h
      exact Or.inr h.symm

theorem parse_postal_error_shape {s : Str} {e : AddressConversionError}
    (h : parse_postal s = .error e) : e = .invalidFormat POSTAL_ERROR := by
  simp only [parse_postal] at h
  split at h
  · split at h
    · simp only [Except.error.injEq] at h
      exact h.symm
    · split at h
      · exact absurd h (by simp)
      · split at h
        · exact absurd h (by simp)
        · simp only [Except.error.injEq] at h
          exact h.symm
  · simp only [Except.error.injEq] at h
    exact h.symm

theorem parse_postal_render {p t : Str} (hp5 : p.length = 5)
    (hpd : p.all Char.isDigit = true) (ht : t ≠ [])
    (htn : t.all (· ≠ '\n') = true) (hth : isWs (t.headD ' ') = false) :
    parse_postal (p ++ ' ' :: t) = .ok { postcode := p, town := t, town_location := none } := by
  have htake : (p ++ ' ' :: t).take 5 = p := List.take_left' hp5
  have hdrop : (p ++ ' ' :: t).drop 5 = ' ' :: t := List.drop_left' hp5
  have htws : t.takeWhile isWs = [] ∧ t.dropWhile isWs = t :=
    takeWhile_head_neg (Or.inr hth)
  have hw : (' ' :: t).takeWhile isWs = [' '] := by
    rw [List.takeWhile_cons_of_pos (by decide), htws.1]
  have hd : (' ' :: t).dropWhile isWs = t := by
    rw [List.dropWhile_cons_of_pos (by decide), htws.2]
  simp only [parse_postal, htake, hdrop, hw, hd]
  rw [if_pos ⟨hp5, hpd⟩, if_neg (by simp), if_pos ⟨ht, htn⟩]

theorem headD_prop_of_all {p : Char → Bool} {d : Str} (hd : d ≠ [])
    (hall : d.all p = true) : p (d.headD ' ') = true := by
  cases d with
  | nil => exact absurd rfl hd
  | cons c cs => simpa using List.all_eq_true.mp hall c (by simp)

theorem headD_append {d y : Str} (hd : d ≠ []) : (d ++ y).headD ' ' = d.headD ' ' := by
  cases d with
  | nil => exact absurd rfl hd
  | cons c cs => simp

theorem townLocCaptures_total {s : Str} (h1 : s ≠ []) (h2 : s.all (· ≠ '\n') = true) :
    ∃ t, townLocCaptures s = some t ∧ t ≠ [] := by
  simp only [townLocCaptures]
  split
  · next c1 c2 rest =>
    split
    · split
      · exact ⟨_, if_pos ⟨h1, h2⟩, h1⟩
      · split
        · next hc => exact ⟨_, rfl, hc.1⟩
        · split
          · exact ⟨_, rfl, by simp⟩
          · exact ⟨_, if_pos ⟨h1, h2⟩, h1⟩
    · exact ⟨_, if_pos ⟨h1, h2⟩, h1⟩
  · exact ⟨_, if_pos ⟨h1, h2⟩, h1⟩

theorem townLocCaptures_strip {c1 c2 : Char} {w d w2 t : Str}
    (hc1 : isUpperAZ c1 = true) (hc2 : isUpperAZ c2 = true)
    (hw : w ≠ []) (hwall : w.all isWs = true)
    (hd : d ≠ []) (hdall : d.all Char.isDigit = true)
    (hw2 : w2 ≠ []) (hw2all : w2.all isWs = true)
    (ht : t ≠ []) (htn : t.all (· ≠ '\n') = true) (hth : isWs (t.headD ' ') = false) :
    townLocCaptures (c1 :: c2 :: (w ++ (d ++ (w2 ++ t)))) = some t := by
  have hdh : isWs ((d ++ (w2 ++ t)).headD ' ') = false := by
    rw [headD_append hd]
    exact digit_not_ws (headD_prop_of_all hd hdall)
  have hw2h : Char.isDigit ((w2 ++ t).headD ' ') = false := by
    rw [headD_append hw2]
    exact ws_not_digit (headD_prop_of_all hw2 hw2all)
  have hth' : t.takeWhile isWs = [] ∧ t.dropWhile isWs = t :=
    takeWhile_head_neg (Or.inr hth)
  have h1 : (w ++ (d ++ (w2 ++ t))).takeWhile isWs = w := by
    rcases takeWhile_append_all (d ++ (w2 ++ t)) (List.all_eq_true.mp hwall) with ⟨ht1, _⟩
    rw [ht1, (takeWhile_head_neg (Or.inr hdh)).1, List.append_nil]
  have h2 : (w ++ (d ++ (w2 ++ t))).dropWhile isWs = d ++ (w2 ++ t) := by
    rcases takeWhile_append_all (d ++ (w2 ++ t)) (List.all_eq_true.mp hwall) with ⟨_, hd1⟩
    rw [hd1, (takeWhile_head_neg (Or.inr hdh)).2]
  have h3 : (d ++ (w2 ++ t)).takeWhile Char.isDigit = d := by
    rcases takeWhile_append_all (w2 ++ t) (List.all_eq_true.mp hdall) with ⟨ht1, _⟩
    rw [ht1, (takeWhile_head_neg (Or.inr hw2h)).1, List.append_nil]
  have h4 : (d ++ (w2 ++ t)).dropWhile Char.isDigit = w2 ++ t := by
    rcases takeWhile_append_all (w2 ++ t) (List.all_eq_true.mp hdall) with ⟨_, hd1⟩
    rw [hd1, (takeWhile_head_neg (Or.inr hw2h)).2]
  have h5 : (w2 ++ t).takeWhile isWs = w2 := by
    rcases takeWhile_append_all t (List.all_eq_true.mp hw2all) with ⟨ht1, _⟩
    rw [ht1, hth'.1, List.append_nil]
  have h6 : (w2 ++ t).dropWhile isWs = t := by
    rcases takeWhile_append_all t (List.all_eq_true.mp hw2all) with ⟨_, hd1⟩
    rw [hd1, hth'.2]
  simp only [townLocCaptures, h1, h2, h3, h4, h5, h6]
  rw [if_pos ⟨hc1, hc2, hw, hd⟩, if_neg (by simp [hw2]), if_pos ⟨ht, htn⟩]

/-! ### Claim theorems -/

/-- C10: for every nonempty input containing no newline, `parse_street`
succeeds and the returned street name is nonempty; the branch producing
the "Street name cannot be empty" error is unreachable for every input;
in particular the digit-led line "25" is accepted with no street number
and the whole line as the street name. -/
theorem parse_street_single_line_safety :
    (∀ s : Str, s ≠ [] → s.all (· ≠ '\n') = true →
      ∃ st, parse_street s = .ok st ∧ st.name ≠ []) ∧
    (∀ s : Str,
      parse_street s ≠ .error (.invalidFormat "Street name cannot be empty".data)) ∧
    parse_street "25".data = .ok { number := none, name := "25".data } := by
  refine ⟨fun s h1 h2 => parse_street_total h1 h2, fun s hcontra => ?_, by decide⟩
  rcases parse_street_error_shape hcontra with h | h <;> exact absurd h (by decide)

/-- C10 witness: instance of the safety statement at the line "A". -/
theorem parse_street_single_line_safety_witness :
    ("A".data ≠ [] ∧ "A".data.all (· ≠ '\n') = true) ∧
    (∃ st, parse_street "A".data = .ok st ∧ st.name ≠ []) :=
  ⟨⟨by decide, by decide⟩,
   parse_street_single_line_safety.1 "A".data (by decide) (by decide)⟩

/-- C4 counterexample: on the input "BP 90432", which consists solely of a
postbox token, `parse_town_location` returns the whole text rather than
None (the regex prefix requires trailing whitespace, so it never strips a
postbox that ends the line). -/
theorem parse_town_location_postbox_only_cex :
    parse_town_location "BP 90432".data = .ok (some "BP 90432".data) ∧
    (Except.ok (some "BP 90432".data) :
      Except AddressConversionError (Option Str)) ≠ .ok none := ⟨by decide, by decide⟩

/-- C4 amended: `parse_town_location` strips a leading postbox token when
the token is followed by whitespace and a further nonempty newline-free
fragment, returning the fragment after the maximal whitespace run; on
nonempty newline-free input it always returns some nonempty fragment,
never None — in particular an input consisting solely of a postbox token,
such as "BP 90432", yields the entire text rather than None; a None
result occurs only for nonempty inputs containing a newline. -/
theorem parse_town_location_characterization :
    (∀ s : Str, s ≠ [] → s.all (· ≠ '\n') = true →
      ∃ t, parse_town_location s = .ok (some t) ∧ t ≠ []) ∧
    (∀ (c1 c2 : Char) (w d w2 t : Str),
      isUpperAZ c1 = true → isUpperAZ c2 = true →
      w ≠ [] → w.all isWs = true → d ≠ [] → d.all Char.isDigit = true →
      w2 ≠ [] → w2.all isWs = true →
      t ≠ [] → t.all (· ≠ '\n') = true → isWs (t.headD ' ') = false →
      parse_town_location (c1 :: c2 :: (w ++ (d ++ (w2 ++ t)))) = .ok (some t)) ∧
    parse_town_location "BP 90432".data = .ok (some "BP 90432".data) ∧
    (∀ s : Str, s ≠ [] → parse_town_location s = .ok none →
      ∃ c ∈ s, c = '\n') := by
  refine ⟨fun s h1 h2 => ?_,
    fun c1 c2 w d w2 t hc1 hc2 hw hwall hd hdall hw2 hw2all ht htn hth => ?_, by decide,
    fun s h1 h2 => ?_⟩
  · obtain ⟨t, hcap, htne⟩ := townLocCaptures_total h1 h2
    exact ⟨t, by simp [parse_town_location, h1, hcap], htne⟩
  · have hcap := townLocCaptures_strip hc1 hc2 hw hwall hd hdall hw2 hw2all ht htn hth
    have hne : (c1 :: c2 :: (w ++ (d ++ (w2 ++ t)))) ≠ [] := by simp
    simp only [parse_town_location, if_neg hne, hcap]
  · by_cases hall : s.all (· ≠ '\n') = true
    · obtain ⟨t, hcap, _⟩ := townLocCaptures_total h1 hall
      rw [parse_town_location, if_neg h1, hcap] at h2
      exact absurd h2 (by simp)
    · rw [List.all_eq_true] at hall
      push_neg at hall
      obtain ⟨c, hc, hcn⟩ := hall
      refine ⟨c, hc, ?_⟩
      simpa using hcn

/-- C4 witness: stripping instance at "BP 90432 MONTFERRIER SUR LEZ". -/
theorem parse_town_location_characterization_witness :
    parse_town_location
      ('B' :: 'P' :: ([' '] ++ ("90432".data ++ ([' '] ++ "MONTFERRIER SUR LEZ".data)))) =
      .ok (some "MONTFERRIER SUR LEZ".data) :=
  parse_town_location_characterization.2.1 'B' 'P' [' '] "90432".data [' ']
    "MONTFERRIER SUR LEZ".data (by decide) (by decide) (by decide) (by decide)
    (by decide) (by decide) (by decide) (by decide) (by decide) (by decide) (by decide)

/-- C6: every Business canonical address without a street fails `to_french`
with a MissingField error, and every Business address with a nonempty
company name and a present street (nonempty name; the postal details are
structurally always present) converts successfully. -/
theorem business_street_requirement :
    (∀ a : Address, a.kind = .business → a.street = none →
      ∃ f, to_french a = .error (.missingField f)) ∧
    (∀ (a : Address) (cn : Str) (ct : Option Str) (st : Street),
      a.kind = .business → a.recipient = .business cn ct → cn ≠ [] →
      a.street = some st → st.name ≠ [] →
      ∃ fa, to_french a = .ok fa) := by
  constructor
  · intro a hk hs
    cases hr : a.recipient with
    | individual n =>
      exact ⟨"company_name".data, by simp [to_french, hk, hr]⟩
    | business cn ct =>
      by_cases hcn : cn = []
      · exact ⟨"company_name".data, by simp [to_french, hk, hr, hcn]⟩
      · exact ⟨"Street information is required for french business addresses".data,
          by simp [to_french, hk, hr, hcn, hs]⟩
  · intro a cn ct st hk hr hcn hs hn
    refine ⟨.business
      { business_name := cn, recipient := (Recipient.business cn ct).denomination,
        external_delivery := a.delivery_point.bind fun dp => dp.external,
        street := renderStreet st, distribution_info := a.distributionInfo,
        postal := a.postalInfo, country := a.country.toStr }, ?_⟩
    simp [to_french, hk, hr, hcn, hs]

/-- C6 witness: instances at a streetless and at a complete business address. -/
theorem business_street_requirement_witness :
    (∃ f, to_french exC6a = .error (.missingField f)) ∧
    (∃ fa, to_french exC6b = .ok fa) :=
  ⟨business_street_requirement.1 exC6a rfl rfl,
   business_street_requirement.2 exC6b "ACME".data none
     { number := none, name := "RUE".data } rfl rfl (by decide) rfl (by decide)⟩

/-- C8: for a Business address, the French `recipient` line and the ISO
`department` element both equal the optional `contact` of the recipient
(never the company name), hence both are absent when the contact is
absent; for Individual addresses `to_iso20022` leaves department unset. -/
theorem business_denomination_rule :
    (∀ (a : Address) (cn : Str) (ct : Option Str) (fa : FrenchAddress),
      a.kind = .business → a.recipient = .business cn ct →
      to_french a = .ok fa → ∃ b, fa = .business b ∧ b.recipient = ct) ∧
    (∀ (a : Address) (cn : Str) (ct : Option Str) (iso : IsoAddress),
      a.kind = .business → a.recipient = .business cn ct →
      to_iso20022 a = .ok iso → iso.departmentField = ct) ∧
    (∀ (a : Address) (iso : IsoAddress), a.kind = .individual →
      to_iso20022 a = .ok iso → iso.departmentField = none) := by
  refine ⟨?_, ?_, ?_⟩
  · intro a cn ct fa hk hr hok
    simp only [to_french, hk, hr, Recipient.denomination] at hok
    by_cases hcn : cn = []
    · simp [hcn] at hok
    · rw [if_neg hcn] at hok
      cases hs : a.street with
      | none => simp [hs] at hok
      | some st =>
        simp only [hs, Except.ok.injEq] at hok
        exact ⟨_, hok.symm, rfl⟩
  · intro a cn ct iso hk hr hok
    simp only [to_iso20022, hk, hr, Recipient.denomination] at hok
    by_cases hcn : cn = []
    · simp [hcn] at hok
    · rw [if_neg hcn] at hok
      simp only [Except.ok.injEq] at hok
      subst hok
      rfl
  · intro a iso hk hok
    cases hr : a.recipient with
    | individual n =>
      simp only [to_iso20022, hk, hr] at hok
      by_cases hn : n = []
      · simp [hn] at hok
      · rw [if_neg hn] at hok
        simp only [Except.ok.injEq] at hok
        subst hok
        rfl
    | business cn ct =>
      simp [to_iso20022, hk, hr] at hok

/-- C8 witness: a business with a company name and no contact maps to an
absent ISO department. -/
theorem business_denomination_rule_witness :
    (exC8.kind = .business ∧ exC8.recipient = .business "ACME".data none ∧
      to_iso20022 exC8 = .ok isoC8) ∧ isoC8.departmentField = none :=
  ⟨⟨rfl, rfl, rfl⟩, business_denomination_rule.2.1 exC8 "ACME".data none isoC8 rfl rfl rfl⟩

/-- C1 counterexample: for `exC1`, whose delivery point is absent while
`postal_details.town_location` is "CAUDOS", `to_french` succeeds with an
absent `distribution_info` instead of the claimed "CAUDOS" line. -/
theorem distribution_info_requires_delivery_point_cex :
    to_french exC1 = .ok faC1 ∧ FrenchAddress.distribution_info faC1 = none ∧
    exC1.postal_details.town_location = some "CAUDOS".data ∧
    exC1.delivery_point = none := ⟨rfl, rfl, rfl, rfl⟩

/-- C2 counterexample: `to_french` succeeds on `exC2` (postcode "X") and
the produced DTO has no distribution-info line, yet `from_french` on that
DTO fails with InvalidFormat, so the left-inverse property fails. -/
theorem round_trip_cex :
    to_french exC2 = .ok faC2 ∧ FrenchAddress.distribution_info faC2 = none ∧
    from_french gen0 faC2 = .error (.invalidFormat POSTAL_ERROR) := ⟨rfl, rfl, rfl⟩

/-- C3 counterexample: the business DTO `faC3` carries the country text
"NOWHERE", which names no registry member, yet `from_french` succeeds
(with country France) instead of failing with InvalidFormat. -/
theorem from_french_business_ignores_country_cex :
    Country.from_str faC3.country = none ∧
    from_french gen0 (.business faC3) = .ok aC3 := ⟨by decide, rfl⟩

/-- C5 counterexample: `from_iso20022` on a Business ISO DTO with an
absent street name succeeds and returns an Address whose street is
present with an empty name, violating the claimed invariant. -/
theorem street_invariant_cex :
    from_iso20022 gen0 isoC5 = .ok aC5 ∧
    aC5.street = some { number := none, name := [] } ∧
    ¬ Address.streetNameOk aC5 :=
  ⟨rfl, rfl, fun h => h { number := none, name := [] } rfl rfl⟩

/-- C7 counterexample: the line "12345" followed by a tab and "X" does not
match the claimed five-digits/single-space/town pattern (position five
holds a tab, not a space), yet `parse_postal` accepts it, because the
regex allows any nonempty whitespace run. -/
theorem parse_postal_whitespace_cex :
    parse_postal "12345\tX".data =
      .ok { postcode := "12345".data, town := "X".data, town_location := none } ∧
    "12345\tX".data = "12345".data ++ '\t' :: "X".data ∧ '\t' ≠ ' ' :=
  ⟨by decide, by decide, by decide⟩

/-- C9 counterexample: two invocations of `from_french` on the same DTO
value draw different fresh ids and timestamps (modelled by `gen0`, `gen1`)
and return unequal Address values, so the operations are not deterministic
at the level of full value equality. -/
theorem from_french_fresh_values_cex :
    from_french gen0 faC9 = .ok aC9a ∧ from_french gen1 faC9 = .ok aC9b ∧
    aC9a ≠ aC9b := ⟨rfl, rfl, by decide⟩

/-- C1 amended: for every address on which `to_french` succeeds, the
produced `distribution_info` equals the postbox/town-location merge
computed only when a delivery point is present; when `delivery_point` is
absent, `distribution_info` is absent even if a town location exists. -/
theorem distribution_info_merge (a : Address) (fa : FrenchAddress)
    (h : to_french a = .ok fa) :
    FrenchAddress.distribution_info fa =
      (match a.delivery_point with
       | none => none
       | some dp =>
         match dp.postbox, a.postal_details.town_location with
         | none, none => none
         | none, some tl => some tl
         | some pb, none => some pb
         | some pb, some tl => some (pb ++ ' ' :: tl)) := by
  have key : FrenchAddress.distribution_info fa = a.distributionInfo := by
    cases hk : a.kind with
    | individual =>
      cases hd : a.recipient.denomination with
      | none => simp [to_french, hk, hd] at h
      | some name =>
        by_cases hn : name = []
        · simp [to_french, hk, hd, hn] at h
        · simp only [to_french, hk, hd] at h
          rw [if_neg hn] at h
          simp only [Except.ok.injEq] at h
          subst h
          rfl
    | business =>
      cases hr : a.recipient with
      | individual n => simp [to_french, hk, hr] at h
      | business cn ct =>
        by_cases hcn : cn = []
        · simp [to_french, hk, hr, hcn] at h
        · cases hs : a.street with
          | none => simp [to_french, hk, hr, hcn, hs] at h
          | some st =>
            simp only [to_french, hk, hr] at h
            rw [if_neg hcn] at h
            simp only [hs, Except.ok.injEq] at h
            subst h
            rfl
  rw [key]
  rfl

/-- C1 witness: merge rule instance at `exC1`. -/
theorem distribution_info_merge_witness :
    to_french exC1 = .ok faC1 ∧
    FrenchAddress.distribution_info faC1 =
      (match exC1.delivery_point with
       | none => none
       | some dp =>
         match dp.postbox, exC1.postal_details.town_location with
         | none, none => none
         | none, some tl => some tl
         | some pb, none => some pb
         | some pb, some tl => some (pb ++ ' ' :: tl)) :=
  ⟨rfl, distribution_info_merge exC1 faC1 rfl⟩

/-- C3 amended: for the Individual variant, `from_french` resolves the
country through the registry (success reflects the registry lookup, and
unknown country text yields an InvalidFormat error); for the Business
variant the DTO country text is ignored and the result country is always
France. -/
theorem from_french_country_resolution :
    (∀ (g : Gen) (i : IndividualFrenchAddress),
      Country.from_str i.country = none →
      ∃ m, from_french g (.individual i) = .error (.invalidFormat m)) ∧
    (∀ (g : Gen) (i : IndividualFrenchAddress) (a : Address),
      from_french g (.individual i) = .ok a →
      Country.from_str i.country = some a.country) ∧
    (∀ (g : Gen) (b : BusinessFrenchAddress) (a : Address),
      from_french g (.business b) = .ok a → a.country = .france) := by
  refine ⟨?_, ?_, ?_⟩
  · intro g i hc
    cases hs0 : i.street with
    | none =>
      cases hpp : parse_postal i.postal with
      | error e =>
        refine ⟨POSTAL_ERROR, ?_⟩
        rw [parse_postal_error_shape hpp] at hpp
        simp [from_french, hs0, hpp, exBind_ok, exBind_error]
      | ok pd =>
        exact ⟨variantNotFoundMsg,
          by simp [from_french, hs0, hpp, hc, exBind_ok, exBind_error]⟩
    | some s =>
      cases hps : parse_street s with
      | error e =>
        rcases parse_street_error_shape hps with h | h <;> rw [h] at hps
        · exact ⟨"Street cannot be empty".data,
            by simp [from_french, hs0, hps, exMap_error, exBind_error]⟩
        · exact ⟨"Invalid street format".data,
            by simp [from_french, hs0, hps, exMap_error, exBind_error]⟩
      | ok st =>
        cases hpp : parse_postal i.postal with
        | error e =>
          refine ⟨POSTAL_ERROR, ?_⟩
          rw [parse_postal_error_shape hpp] at hpp
          simp [from_french, hs0, hps, hpp, exMap_ok, exBind_ok, exBind_error]
        | ok pd =>
          exact ⟨variantNotFoundMsg,
            by simp [from_french, hs0, hps, hpp, hc, exMap_ok, exBind_ok, exBind_error]⟩
  · intro g i a hok
    cases hs0 : i.street with
    | none =>
      cases hpp : parse_postal i.postal with
      | error e => simp [from_french, hs0, hpp, exBind_error] at hok
      | ok pd =>
        cases hcp : Country.from_str i.country with
        | none => simp [from_french, hs0, hpp, hcp, exBind_ok, exBind_error] at hok
        | some c =>
          simp only [from_french, hs0, hpp, hcp, exBind_ok, Except.ok.injEq] at hok
          rw [← hok]
    | some s =>
      cases hps : parse_street s with
      | error e => simp [from_french, hs0, hps, exMap_error, exBind_error] at hok
      | ok st =>
        cases hpp : parse_postal i.postal with
        | error e => simp [from_french, hs0, hps, hpp, exMap_ok, exBind_ok, exBind_error] at hok
        | ok pd =>
          cases hcp : Country.from_str i.country with
          | none =>
            simp [from_french, hs0, hps, hpp, hcp, exMap_ok, exBind_ok, exBind_error] at hok
          | some c =>
            simp only [from_french, hs0, hps, hpp, hcp, exMap_ok, exBind_ok,
              Except.ok.injEq] at hok
            rw [← hok]
  · intro g b a hok
    cases hps : parse_street b.street with
    | error e => simp [from_french, hps, exBind_error] at hok
    | ok st =>
      cases hpp : parse_postal b.postal with
      | error e => simp [from_french, hps, hpp, exBind_ok, exBind_error] at hok
      | ok pd =>
        cases hdi : b.distribution_info with
        | none =>
          simp only [from_french, hps, hpp, hdi, exBind_ok, Except.ok.injEq] at hok
          rw [← hok]
        | some info =>
          cases hpb : parse_postbox info with
          | error e => simp [from_french, hps, hpp, hdi, hpb, exBind_ok, exBind_error] at hok
          | ok pb =>
            cases htl : parse_town_location info with
            | error e =>
              simp [from_french, hps, hpp, hdi, hpb, htl, exBind_ok, exBind_error] at hok
            | ok tl =>
              simp only [from_french, hps, hpp, hdi, hpb, htl, exBind_ok,
                Except.ok.injEq] at hok
              rw [← hok]

/-- C3 witness: unknown country text "MARS" on an individual DTO makes
`from_french` fail with InvalidFormat. -/
theorem from_french_country_resolution_witness :
    Country.from_str iC3w.country = none ∧
    ∃ m, from_french gen0 (.individual iC3w) = .error (.invalidFormat m) :=
  ⟨by decide, from_french_country_resolution.1 gen0 iC3w (by decide)⟩

/-- C5 amended: every address returned by `from_french` (both variants)
and by `from_iso20022` on the Individual variant satisfies the invariant
that a present street has a nonempty name; the invariant fails on the
Business ISO variant when the street name is absent (see the
counterexample). -/
theorem street_invariant_amended :
    (∀ (g : Gen) (fa : FrenchAddress) (a : Address),
      from_french g fa = .ok a → a.streetNameOk) ∧
    (∀ (g : Gen) (n : Str) (pa : IsoPostalAddress) (a : Address),
      from_iso20022 g (.individual n pa) = .ok a → a.streetNameOk) := by
  constructor
  · intro g fa a hok
    cases fa with
    | individual i =>
      cases hs0 : i.street with
      | none =>
        cases hpp : parse_postal i.postal with
        | error e => simp [from_french, hs0, hpp, exBind_error] at hok
        | ok pd =>
          cases hcp : Country.from_str i.country with
          | none => simp [from_french, hs0, hpp, hcp, exBind_ok, exBind_error] at hok
          | some c =>
            simp only [from_french, hs0, hpp, hcp, exBind_ok, Except.ok.injEq] at hok
            subst hok
            intro st hst
            cases hst
      | some s =>
        cases hps : parse_street s with
        | error e => simp [from_french, hs0, hps, exMap_error, exBind_error] at hok
        | ok st0 =>
          cases hpp : parse_postal i.postal with
          | error e =>
            simp [from_french, hs0, hps, hpp, exMap_ok, exBind_ok, exBind_error] at hok
          | ok pd =>
            cases hcp : Country.from_str i.country with
            | none =>
              simp [from_french, hs0, hps, hpp, hcp, exMap_ok, exBind_ok, exBind_error] at hok
            | some c =>
              simp only [from_french, hs0, hps, hpp, hcp, exMap_ok, exBind_ok,
                Except.ok.injEq] at hok
              subst hok
              intro st hst
              cases hst
              exact parse_street_ok_name hps
    | business b =>
      cases hps : parse_street b.street with
      | error e => simp [from_french, hps, exBind_error] at hok
      | ok st0 =>
        cases hpp : parse_postal b.postal with
        | error e => simp [from_french, hps, hpp, exBind_ok, exBind_error] at hok
        | ok pd =>
          cases hdi : b.distribution_info with
          | none =>
            simp only [from_french, hps, hpp, hdi, exBind_ok, Except.ok.injEq] at hok
            subst hok
            intro st hst
            cases hst
            exact parse_street_ok_name hps
          | some info =>
            cases hpb : parse_postbox info with
            | error e =>
              simp [from_french, hps, hpp, hdi, hpb, exBind_ok, exBind_error] at hok
            | ok pb =>
              cases htl : parse_town_location info with
              | error e =>
                simp [from_french, hps, hpp, hdi, hpb, htl, exBind_ok, exBind_error] at hok
              | ok tl =>
                simp only [from_french, hps, hpp, hdi, hpb, htl, exBind_ok,
                  Except.ok.injEq] at hok
                subst hok
                intro st hst
                cases hst
                exact parse_street_ok_name hps
  · intro g n pa a hok
    cases hsn : pa.street_name with
    | none => simp [from_iso20022, hsn, exBind_error] at hok
    | some sn =>
      by_cases hne : sn = []
      · simp [from_iso20022, hsn, hne, exBind_error] at hok
      · cases hcp : Country.from_str pa.country with
        | none => simp [from_iso20022, hsn, hne, hcp, exBind_ok, exBind_error] at hok
        | some c =>
          simp only [from_iso20022, hsn] at hok
          rw [if_neg hne] at hok
          simp only [hcp, exBind_ok, Except.ok.injEq] at hok
          subst hok
          intro st hst
          cases hst
          exact hne

/-- C5 witness: invariant instance at the individual ISO input `paC5w`. -/
theorem street_invariant_amended_witness :
    from_iso20022 gen0 (.individual "A".data paC5w) = .ok aC5w ∧
    Address.streetNameOk aC5w :=
  ⟨rfl, street_invariant_amended.2 gen0 "A".data paC5w aC5w rfl⟩

/-- C9 amended: `to_french` and `to_iso20022` are functions of the address
alone; `from_french` and `from_iso20022` are deterministic up to the
freshly drawn id and timestamp — runs with different generated values on
the same input yield identical errors or addresses of identical content. -/
theorem conversions_deterministic_mod_gen :
    (∀ (g1 g2 : Gen) (fa : FrenchAddress),
      agreeModGen (from_french g1 fa) (from_french g2 fa)) ∧
    (∀ (g1 g2 : Gen) (iso : IsoAddress),
      agreeModGen (from_iso20022 g1 iso) (from_iso20022 g2 iso)) := by
  constructor
  · intro g1 g2 fa
    cases fa with
    | individual i =>
      cases hs0 : i.street with
      | none =>
        cases hpp : parse_postal i.postal with
        | error e => simp [from_french, hs0, hpp, exBind_error, agreeModGen]
        | ok pd =>
          cases hcp : Country.from_str i.country with
          | none => simp [from_french, hs0, hpp, hcp, exBind_ok, exBind_error, agreeModGen]
          | some c =>
            simp [from_french, hs0, hpp, hcp, exBind_ok, agreeModGen,
              Address.content, Address.new]
      | some s =>
        cases hps : parse_street s with
        | error e => simp [from_french, hs0, hps, exMap_error, exBind_error, agreeModGen]
        | ok st =>
          cases hpp : parse_postal i.postal with
          | error e =>
            simp [from_french, hs0, hps, hpp, exMap_ok, exBind_ok, exBind_error, agreeModGen]
          | ok pd =>
            cases hcp : Country.from_str i.country with
            | none =>
              simp [from_french, hs0, hps, hpp, hcp, exMap_ok, exBind_ok, exBind_error,
                agreeModGen]
            | some c =>
              simp [from_french, hs0, hps, hpp, hcp, exMap_ok, exBind_ok, agreeModGen,
                Address.content, Address.new]
    | business b =>
      cases hps : parse_street b.street with
      | error e => simp [from_french, hps, exBind_error, agreeModGen]
      | ok st =>
        cases hpp : parse_postal b.postal with
        | error e => simp [from_french, hps, hpp, exBind_ok, exBind_error, agreeModGen]
        | ok pd =>
          cases hdi : b.distribution_info with
          | none =>
            simp [from_french, hps, hpp, hdi, exBind_ok, agreeModGen,
              Address.content, Address.new]
          | some info =>
            cases hpb : parse_postbox info with
            | error e =>
              simp [from_french, hps, hpp, hdi, hpb, exBind_ok, exBind_error, agreeModGen]
            | ok pb =>
              cases htl : parse_town_location info with
              | error e =>
                simp [from_french, hps, hpp, hdi, hpb, htl, exBind_ok, exBind_error,
                  agreeModGen]
              | ok tl =>
                simp [from_french, hps, hpp, hdi, hpb, htl, exBind_ok, agreeModGen,
                  Address.content, Address.new]
  · intro g1 g2 iso
    cases iso with
    | individual n pa =>
      cases hsn : pa.street_name with
      | none => simp [from_iso20022, hsn, exBind_error, agreeModGen]
      | some sn =>
        by_cases hne : sn = []
        · simp [from_iso20022, hsn, hne, exBind_error, agreeModGen]
        · cases hcp : Country.from_str pa.country with
          | none => simp [from_iso20022, hsn, hne, hcp, exBind_ok, exBind_error, agreeModGen]
          | some c =>
            simp [from_iso20022, hsn, hne, hcp, exBind_ok, agreeModGen,
              Address.content, Address.new]
    | business cn pa =>
      cases hcp : Country.from_str pa.country with
      | none => simp [from_iso20022, hcp, exBind_error, agreeModGen]
      | some c =>
        simp [from_iso20022, hcp, exBind_ok, agreeModGen, Address.content, Address.new]

theorem getLastD_eq_getLast {l : Str} (h : l ≠ []) : l.getLastD ' ' = l.getLast h := by
  rw [List.getLastD_eq_getLast?, List.getLast?_eq_getLast l h]
  rfl

theorem parse_postal_ok_decomp {d w t : Str} (hd5 : d.length = 5)
    (hdall : d.all Char.isDigit = true) (hw : w ≠ []) (hwall : w.all isWs = true)
    (ht : t ≠ []) (htn : t.all (· ≠ '\n') = true) :
    ∃ pd, parse_postal (d ++ (w ++ t)) = .ok pd := by
  have htake : (d ++ (w ++ t)).take 5 = d := List.take_left' hd5
  have hdrop : (d ++ (w ++ t)).drop 5 = w ++ t := List.drop_left' hd5
  rcases takeWhile_append_all t (List.all_eq_true.mp hwall) with ⟨hT, hD⟩
  by_cases hTd : t.dropWhile isWs = []
  · have htall : ∀ c ∈ t, isWs c := List.dropWhile_eq_nil_iff.mp hTd
    have htw : t.takeWhile isWs = t := List.takeWhile_eq_self_iff.mpr htall
    have hW : (w ++ t).takeWhile isWs = w ++ t := by rw [hT, htw]
    have hD' : (w ++ t).dropWhile isWs = [] := by rw [hD, hTd]
    have hlen : 2 ≤ (w ++ t).length := by
      have h1 : 0 < w.length := List.length_pos.mpr hw
      have h2 : 0 < t.length := List.length_pos.mpr ht
      simp only [List.length_append]
      omega
    have hlast : (w ++ t).getLastD ' ' = t.getLast ht := by
      conv_lhs => rw [← List.dropLast_append_getLast ht, ← List.append_assoc]
      exact List.getLastD_concat _ _ _
    have hlastn : (w ++ t).getLastD ' ' ≠ '\n' := by
      rw [hlast]
      simpa using List.all_eq_true.mp htn (t.getLast ht) (List.getLast_mem ht)
    refine ⟨{ postcode := d, town := [(w ++ t).getLastD ' '], town_location := none }, ?_⟩
    simp only [parse_postal, htake, hdrop, hW, hD']
    rw [if_pos ⟨hd5, hdall⟩, if_neg (by simp [hw]),
      if_neg (by intro hc; exact hc.1 rfl), if_pos (by exact ⟨trivial, hlen, hlastn⟩)]
  · have hTnl : (t.dropWhile isWs).all (· ≠ '\n') = true :=
      all_of_subset (List.dropWhile_subset isWs) htn
    have hWne : (w ++ t).takeWhile isWs ≠ [] := by
      rw [hT]
      exact List.append_ne_nil_of_left_ne_nil hw _
    refine ⟨{ postcode := d, town := t.dropWhile isWs, town_location := none }, ?_⟩
    simp only [parse_postal, htake, hdrop, hD]
    rw [if_pos ⟨hd5, hdall⟩, if_neg hWne, if_pos ⟨hTd, hTnl⟩]

theorem parse_postal_ok_shape {s : Str} {pd : PostalDetails}
    (h : parse_postal s = .ok pd) :
    ∃ d w t, s = d ++ (w ++ t) ∧ d.length = 5 ∧ d.all Char.isDigit = true ∧
      w ≠ [] ∧ w.all isWs = true ∧ t ≠ [] ∧ t.all (· ≠ '\n') = true := by
  simp only [parse_postal] at h
  split at h
  · next hd5 =>
    split at h
    · exact absurd h (by simp)
    · next hwne =>
      split at h
      · next hcond =>
        refine ⟨s.take 5, (s.drop 5).takeWhile isWs, (s.drop 5).dropWhile isWs,
          ?_, hd5.1, hd5.2, hwne, ?_, hcond.1, hcond.2⟩
        · rw [List.takeWhile_append_dropWhile, List.take_append_drop]
        · exact List.all_eq_true.mpr fun c hc => List.mem_takeWhile_imp hc
      · split at h
        · next hcond2 =>
          obtain ⟨hTd, hlen, hlast⟩ := hcond2
          have hwne' : (s.drop 5).takeWhile isWs ≠ [] := hwne
          have hdl : ((s.drop 5).takeWhile isWs).dropLast ≠ [] := by
            have := List.length_dropLast ((s.drop 5).takeWhile isWs)
            intro hc
            rw [hc] at this
            simp at this
            omega
          refine ⟨s.take 5, ((s.drop 5).takeWhile isWs).dropLast,
            [((s.drop 5).takeWhile isWs).getLastD ' '], ?_, hd5.1, hd5.2, hdl, ?_,
            by simp, ?_⟩
          · have hdropW : List.drop 5 s = (s.drop 5).takeWhile isWs := by
              conv_lhs => rw [← List.takeWhile_append_dropWhile (p := isWs) (l := s.drop 5)]
              rw [hTd, List.append_nil]
            rw [getLastD_eq_getLast hwne', List.dropLast_append_getLast hwne',
              ← hdropW, List.take_append_drop]
          · exact all_of_subset (List.dropLast_subset _)
              (List.all_eq_true.mpr fun c hc => List.mem_takeWhile_imp hc)
          · simpa using hlast
        · exact absurd h (by simp)
  · exact absurd h (by simp)

/-- C7 amended: `parse_postal` succeeds exactly on lines decomposable as a
five-digit code, one or more whitespace characters, and a nonempty
newline-free remainder (`\s+` admits any whitespace, not only a single
space); every failure carries the guidance message; and a DTO whose
postal line fails to parse makes `from_french` fail with InvalidFormat —
no partially-populated Address is returned. -/
theorem parse_postal_characterization :
    (∀ s : Str, (∃ pd, parse_postal s = .ok pd) ↔
      ∃ d w t, s = d ++ (w ++ t) ∧ d.length = 5 ∧ d.all Char.isDigit = true ∧
        w ≠ [] ∧ w.all isWs = true ∧ t ≠ [] ∧ t.all (· ≠ '\n') = true) ∧
    (∀ (s : Str) (e : AddressConversionError), parse_postal s = .error e →
      e = .invalidFormat POSTAL_ERROR) ∧
    (∀ (g : Gen) (fa : FrenchAddress) (e : AddressConversionError),
      parse_postal fa.postalLine = .error e →
      ∃ m, from_french g fa = .error (.invalidFormat m)) := by
  refine ⟨fun s => ⟨fun ⟨pd, h⟩ => parse_postal_ok_shape h, ?_⟩,
    fun s e h => parse_postal_error_shape h, ?_⟩
  · rintro ⟨d, w, t, rfl, hd5, hdall, hw, hwall, ht, htn⟩
    exact parse_postal_ok_decomp hd5 hdall hw hwall ht htn
  · intro g fa e hpe
    cases fa with
    | individual i =>
      rw [show FrenchAddress.postalLine (.individual i) = i.postal from rfl] at hpe
      cases hs0 : i.street with
      | none =>
        refine ⟨POSTAL_ERROR, ?_⟩
        rw [parse_postal_error_shape hpe] at hpe
        simp [from_french, hs0, hpe]
      | some s =>
        cases hps : parse_street s with
        | error e2 =>
          rcases parse_street_error_shape hps with h | h <;> rw [h] at hps
          · exact ⟨"Street cannot be empty".data, by simp [from_french, hs0, hps]⟩
          · exact ⟨"Invalid street format".data, by simp [from_french, hs0, hps]⟩
        | ok st =>
          refine ⟨POSTAL_ERROR, ?_⟩
          rw [parse_postal_error_shape hpe] at hpe
          simp [from_french, hs0, hps, hpe]
    | business b =>
      rw [show FrenchAddress.postalLine (.business b) = b.postal from rfl] at hpe
      cases hps : parse_street b.street with
      | error e2 =>
        rcases parse_street_error_shape hps with h | h <;> rw [h] at hps
        · exact ⟨"Street cannot be empty".data, by simp [from_french, hps]⟩
        · exact ⟨"Invalid street format".data, by simp [from_french, hps]⟩
      | ok st =>
        refine ⟨POSTAL_ERROR, ?_⟩
        rw [parse_postal_error_shape hpe] at hpe
        simp [from_french, hps, hpe]

theorem parse_renderStreet {st : Street}
    (h1 : st.name.all (· ≠ '\n') = true)
    (h2 : ∀ n, st.number = some n → n.all (· ≠ '\n') = true)
    (h3 : st.number = none → st.name ≠ []) :
    ∃ st2, parse_street (renderStreet st) = .ok st2 := by
  cases hn : st.number with
  | none =>
    obtain ⟨st2, hps, _⟩ := parse_street_total (s := st.name) (h3 hn) h1
    exact ⟨st2, by simpa [renderStreet, hn] using hps⟩
  | some num =>
    have hne : renderStreet st ≠ [] := by simp [renderStreet, hn]
    have hnl : (renderStreet st).all (· ≠ '\n') = true := by
      simp only [renderStreet, hn, List.all_append, List.all_cons, h1, h2 num hn,
        Bool.and_true, Bool.true_and]
      decide
    obtain ⟨st2, hps, _⟩ := parse_street_total hne hnl
    exact ⟨st2, hps⟩

/-- C2 amended: `from_french` is a left-inverse of `to_french` on name (or
company name), postcode, town and country for canonical addresses whose
kind matches the recipient variant, whose postcode is a five-digit code,
whose town is nonempty newline-free text not starting with whitespace,
whose street (when present) renders to a nonempty newline-free line, and
whose French DTO carries no distribution-info line.  (The claim as stated
fails without the postcode/town shape conditions — see the
counterexample.) -/
theorem from_french_left_inverse (g : Gen) (a : Address) (fa : FrenchAddress)
    (hcons : a.recipientConsistent)
    (hp5 : a.postal_details.postcode.length = 5)
    (hpdig : a.postal_details.postcode.all Char.isDigit = true)
    (htne : a.postal_details.town ≠ [])
    (htnl : a.postal_details.town.all (· ≠ '\n') = true)
    (hth : isWs (a.postal_details.town.headD ' ') = false)
    (hst : ∀ st, a.street = some st → st.name.all (· ≠ '\n') = true ∧
      (∀ n, st.number = some n → n.all (· ≠ '\n') = true) ∧
      (st.number = none → st.name ≠ []))
    (hok : to_french a = .ok fa)
    (hdi : FrenchAddress.distribution_info fa = none) :
    ∃ a2, from_french g fa = .ok a2 ∧
      a2.recipient.primaryName = a.recipient.primaryName ∧
      a2.postal_details.postcode = a.postal_details.postcode ∧
      a2.postal_details.town = a.postal_details.town ∧
      a2.country = a.country := by
  have hpostal : parse_postal (Address.postalInfo a) =
      .ok { postcode := a.postal_details.postcode, town := a.postal_details.town,
            town_location := none } :=
    parse_postal_render hp5 hpdig htne htnl hth
  have hfr : Country.from_str ("FRANCE".data) = some Country.france := by decide
  cases hk : a.kind with
  | individual =>
    cases hr : a.recipient with
    | business cn ct => simp [Address.recipientConsistent, hk, hr] at hcons
    | individual n =>
      have hden : a.recipient.denomination = some n := by rw [hr]; rfl
      simp only [to_french, hk, hden] at hok
      by_cases hn : n = []
      · rw [if_pos hn] at hok
        exact absurd hok (by simp)
      · rw [if_neg hn] at hok
        simp only [Except.ok.injEq] at hok
        subst hok
        simp only [FrenchAddress.distribution_info] at hdi
        cases hc : a.country
        cases hs : a.street with
        | none =>
          refine ⟨Address.new g .individual (.individual n)
            (mkDeliveryPoint (a.delivery_point.bind fun dp => dp.external)
              (a.delivery_point.bind fun dp => dp.internal) none)
            none
            { postcode := a.postal_details.postcode, town := a.postal_details.town,
              town_location := none }
            Country.france, ?_, by simp [Address.new, Recipient.primaryName, hr],
            rfl, rfl, by rw [hc]⟩
          simp only [from_french, hs, hdi, hc, Option.map_none', exBind_ok]
          rw [show Country.toStr Country.france = "FRANCE".data from rfl, hfr]
          simp only [exBind_ok]
          rw [hpostal]
          simp only [exBind_ok]
        | some st =>
          obtain ⟨st2, hps⟩ :=
            parse_renderStreet (hst st hs).1 (hst st hs).2.1 (hst st hs).2.2
          refine ⟨Address.new g .individual (.individual n)
            (mkDeliveryPoint (a.delivery_point.bind fun dp => dp.external)
              (a.delivery_point.bind fun dp => dp.internal) none)
            (some st2)
            { postcode := a.postal_details.postcode, town := a.postal_details.town,
              town_location := none }
            Country.france, ?_, by simp [Address.new, Recipient.primaryName, hr],
            rfl, rfl, by rw [hc]⟩
          simp only [from_french, hs, hdi, hc, Option.map_some', hps, exMap_ok, exBind_ok]
          rw [show Country.toStr Country.france = "FRANCE".data from rfl, hfr]
          simp only [exBind_ok]
          rw [hpostal]
          simp only [exBind_ok]
  | business =>
    cases hr : a.recipient with
    | individual n => simp [Address.recipientConsistent, hk, hr] at hcons
    | business cn ct =>
      simp only [to_french, hk, hr] at hok
      by_cases hcn : cn = []
      · rw [if_pos hcn] at hok
        exact absurd hok (by simp)
      · rw [if_neg hcn] at hok
        cases hs : a.street with
        | none =>
          rw [hs] at hok
          exact absurd hok (by simp)
        | some st =>
          rw [hs] at hok
          simp only [Except.ok.injEq] at hok
          subst hok
          simp only [FrenchAddress.distribution_info] at hdi
          obtain ⟨st2, hps⟩ :=
            parse_renderStreet (hst st hs).1 (hst st hs).2.1 (hst st hs).2.2
          cases hc : a.country
          refine ⟨Address.new g .business
            (.business cn ((Recipient.business cn ct).denomination))
            (some { external := a.delivery_point.bind fun dp => dp.external,
                    internal := none, postbox := none })
            (some st2)
            { postcode := a.postal_details.postcode, town := a.postal_details.town,
              town_location := none }
            Country.france, ?_, by simp [Address.new, Recipient.primaryName, hr],
            rfl, rfl, by rw [hc]⟩
          simp only [from_french, hdi, hps, exBind_ok]
          rw [hpostal]
          simp only [exBind_ok]

/-- C2 witness: round-trip instance at `exC2w` / `faC2w`. -/
theorem from_french_left_inverse_witness :
    (to_french exC2w = .ok faC2w ∧ FrenchAddress.distribution_info faC2w = none) ∧
    ∃ a2, from_french gen0 faC2w = .ok a2 ∧
      a2.recipient.primaryName = exC2w.recipient.primaryName ∧
      a2.postal_details.postcode = exC2w.postal_details.postcode ∧
      a2.postal_details.town = exC2w.postal_details.town ∧
      a2.country = exC2w.country :=
  ⟨⟨rfl, rfl⟩, from_french_left_inverse gen0 exC2w faC2w trivial (by decide) (by decide)
    (by decide) (by decide) (by decide) (fun st h => Option.noConfusion h) rfl rfl⟩

/-- C7 witness: a free-text postal line with no five-digit code makes
`from_french` fail with InvalidFormat. -/
theorem parse_postal_characterization_witness :
    parse_postal (FrenchAddress.postalLine faC7w) = .error (.invalidFormat POSTAL_ERROR) ∧
    ∃ m, from_french gen0 faC7w = .error (.invalidFormat m) :=
  ⟨by decide, parse_postal_characterization.2.2 gen0 faC7w (.invalidFormat POSTAL_ERROR)
    (by decide)⟩

end AddressConverter
